import Mathlib

/-!
Verification of the semantic-cache component `MarqoSemanticCache`
(source: `src/cache.py`).

The component wraps an external vector-search service (Marqo).  We model
the client as a record of oracle functions returning `Except PyExc _`:
the service's behaviour is arbitrary, only the calls the component makes
to it and how it handles the results are fixed by the source.

Modelling decisions:
* Python exceptions become the inductive `PyExc`.  In the marqo client
  library, `MarqoWebError` is a subclass of `MarqoError`; the dispatch of
  `except MarqoWebError` before `except MarqoError` is therefore the
  three-way match in `_ensure_index_exists` below, with every non-Marqo
  exception propagating uncaught.
* Similarity scores are Python floats used only in order comparisons; we
  model them as `Rat`, on which the comparisons are exact.
* Python's `sorted(xs, key=lambda x: x["_score"], reverse=True)` is a
  stable sort, descending by score; `sortHitsDesc` is a stable descending
  insertion sort, which computes the same list (a stable sort for a given
  total preorder on keys is unique).
* `get_cached_answer` returns its result together with the list of client
  calls it issued, so that read-only behaviour (the frame property) is a
  theorem about the code rather than an assumption.
-/

/-- A hit as returned by `search`: the retrieved `answer` field plus the
similarity score `_score` (modelled as `Rat`). -/
structure Hit where
  answer : String
  score : Rat
deriving DecidableEq, Repr

/-- The document stored by `store_llm_response`. -/
structure CacheDoc where
  question : String
  answer : String
  rephrased_query : String
deriving DecidableEq, Repr

/-- The argument bundle of `add_documents` as issued by the source
(lines 51-55 of `cache.py`). -/
structure AddDocumentsRequest where
  documents : List CacheDoc
  tensor_fields : List String
  auto_refresh : Bool
deriving DecidableEq, Repr

/-- The argument bundle of `search` as issued by the source
(lines 71-77 of `cache.py`). -/
structure SearchRequest where
  q : String
  searchable_attributes : List String
  attributes_to_retrieve : List String
  limit : Int
  offset : Int
deriving DecidableEq, Repr

/-- Python exceptions relevant to `cache.py`.  `marqoWebError` carries the
`code` attribute inspected at line 35; `marqoError` carries a message and
the `__cause__` set by `raise ... from e`; `otherError` is any non-Marqo
exception. -/
inductive PyExc where
  | marqoWebError (code : String) (message : String) : PyExc
  | marqoError (message : String) (cause : Option PyExc) : PyExc
  | otherError (message : String) : PyExc
deriving Repr

/-- Python `str(e)`: the message of the exception. -/
def PyExc.pystr : PyExc → String
  | .marqoWebError _ message => message
  | .marqoError message _ => message
  | .otherError message => message

/-- The Marqo client, modelled as oracles for the three operations the
source invokes.  Each takes the index name (from `client.index(name)` /
`create_index(index_name=...)`) and the request, and either returns or
raises. -/
structure MarqoClient where
  create_index : String → Except PyExc Unit
  add_documents : String → AddDocumentsRequest → Except PyExc Unit
  search : String → SearchRequest → Except PyExc (List Hit)

/-- One call issued to the Marqo client, for recording traces. -/
inductive ClientCall where
  | createIndex (index_name : String) : ClientCall
  | addDocuments (index_name : String) (req : AddDocumentsRequest) : ClientCall
  | search (index_name : String) (req : SearchRequest) : ClientCall

/-- The state held by the external service for one collection, and how
each client call affects it.  Modelled from the spec, section 6: in the
collaborator contract, `createCollection` makes the collection exist,
`addDocument` inserts documents, and `search` only returns hits. -/
structure ServiceState where
  index_exists : Bool
  docs : List CacheDoc

/-- Effect of one client call on the external service state (spec §6). -/
def applyCall (st : ServiceState) : ClientCall → ServiceState
  | .createIndex _ => { st with index_exists := true }
  | .addDocuments _ req => { st with docs := st.docs ++ req.documents }
  | .search _ _ => st

/-- The cache manager: the fields set by `__init__` (`cache.py` lines
18-20).  The client built from `marqo_url` is carried directly. -/
structure MarqoSemanticCache where
  marqo_client : MarqoClient
  index_name : String
  top_k : Int

/-- `_ensure_index_exists` (`cache.py` lines 23-40): attempt to create the
index; swallow the `index_already_exists` web error, re-raise any other
web error unchanged, wrap any other `MarqoError` (adding the original as
cause, per `raise ... from e`), and let any non-Marqo exception propagate
uncaught. -/
def ensure_index_exists (self : MarqoSemanticCache) : Except PyExc Unit :=
  match self.marqo_client.create_index self.index_name with
  | Except.ok _ => Except.ok ()
  | Except.error e =>
    match e with
    | PyExc.marqoWebError code _ =>
        if code = "index_already_exists" then Except.ok () else Except.error e
    | PyExc.marqoError _ _ =>
        Except.error (PyExc.marqoError
          ("Failed to create index " ++ self.index_name ++ ": " ++ e.pystr) (some e))
    | PyExc.otherError _ => Except.error e

/-- The `add_documents` request built by `store_llm_response`
(`cache.py` lines 51-55): one document with the three fields,
`tensor_fields=['rephrased_query']`, `auto_refresh=True`. -/
def store_request (question answer rephrased_query : String) : AddDocumentsRequest :=
  { documents := [{ question := question, answer := answer,
                    rephrased_query := rephrased_query }]
    tensor_fields := ["rephrased_query"]
    auto_refresh := true }

/-- `store_llm_response` (`cache.py` lines 42-55). -/
def store_llm_response (self : MarqoSemanticCache)
    (question answer rephrased_query : String) : Except PyExc Unit :=
  self.marqo_client.add_documents self.index_name
    (store_request question answer rephrased_query)

/-- The list comprehension at `cache.py` lines 78-80: keep the hits whose
`_score` is at least `score_threshold` (the comparison is `>=`). -/
def filtered_results (hits : List Hit) (score_threshold : Rat) : List Hit :=
  hits.filter (fun r => decide (score_threshold ≤ r.score))

/-- Stable insertion of a hit into a list already sorted descending by
score: skip the strictly greater prefix, so that among equal scores the
inserted (originally earlier) element comes first. -/
def insertHitDesc (x : Hit) : List Hit → List Hit
  | [] => [x]
  | y :: ys => if x.score < y.score then y :: insertHitDesc x ys else x :: y :: ys

/-- Stable descending sort by score: the embedding of
`sorted(filtered_results, key=lambda x: x["_score"], reverse=True)`
(`cache.py` line 81).  Python's `sorted` is stable, and a stable sort by
a given key is uniquely determined, so this insertion sort computes the
same list. -/
def sortHitsDesc : List Hit → List Hit
  | [] => []
  | x :: xs => insertHitDesc x (sortHitsDesc xs)

/-- `sorted_results` at `cache.py` line 81 as a function of the raw hits. -/
def sorted_results (hits : List Hit) (score_threshold : Rat) : List Hit :=
  sortHitsDesc (filtered_results hits score_threshold)

/-- The earliest hit of maximal score in a list (`none` on the empty
list).  Used to characterise the head of the stable descending sort. -/
def firstMaxHit : List Hit → Option Hit
  | [] => none
  | x :: xs =>
    match firstMaxHit xs with
    | none => some x
    | some y => if x.score < y.score then some y else some x

/-- `get_cached_answer` (`cache.py` lines 57-85), returning both the
Python result (`Except` for a raised exception, `Option` for answer vs
`None`) and the trace of client calls issued.  Lines 68-69 substitute the
default for the sentinel `-1`; lines 71-77 issue one search; lines 78-85
filter, sort descending, and return the first answer or `None`. -/
def get_cached_answer (self : MarqoSemanticCache) (question : String)
    (score_threshold : Rat) (top_k : Int) :
    Except PyExc (Option String) × List ClientCall :=
  let top_k := if top_k = -1 then self.top_k else top_k
  let req : SearchRequest :=
    { q := question
      searchable_attributes := ["rephrased_query"]
      attributes_to_retrieve := ["answer"]
      limit := top_k
      offset := 0 }
  let trace := [ClientCall.search self.index_name req]
  match self.marqo_client.search self.index_name req with
  | Except.error e => (Except.error e, trace)
  | Except.ok hits =>
    match sorted_results hits score_threshold with
    | [] => (Except.ok none, trace)
    | r :: _ => (Except.ok (some r.answer), trace)

/-- A client whose search always returns the given hits and whose other
operations succeed; used to instantiate theorems at concrete hit lists. -/
def constClient (hits : List Hit) : MarqoClient :=
  { create_index := fun _ => Except.ok ()
    add_documents := fun _ _ => Except.ok ()
    search := fun _ _ => Except.ok hits }

/-- A cache manager over `constClient` with the default index name. -/
def constCache (hits : List Hit) (top_k : Int) : MarqoSemanticCache :=
  { marqo_client := constClient hits, index_name := "llm_cache", top_k := top_k }

/-- A client all of whose operations raise the given exception. -/
def failingClient (e : PyExc) : MarqoClient :=
  { create_index := fun _ => Except.error e
    add_documents := fun _ _ => Except.error e
    search := fun _ _ => Except.error e }

/-- A cache manager over `failingClient`. -/
def failingCache (e : PyExc) (top_k : Int) : MarqoSemanticCache :=
  { marqo_client := failingClient e, index_name := "llm_cache", top_k := top_k }

/-! ## Helper lemmas about the stable descending sort -/

/-- Membership in `insertHitDesc`. -/
theorem mem_insertHitDesc (a x : Hit) (l : List Hit) :
    a ∈ insertHitDesc x l ↔ a = x ∨ a ∈ l := by
  induction l with
  | nil => simp [insertHitDesc]
  | cons y ys ih =>
    simp only [insertHitDesc]
    split
    · simp only [List.mem_cons, ih]
      tauto
    · simp [List.mem_cons]

/-- Membership in `sortHitsDesc`. -/
theorem mem_sortHitsDesc (a : Hit) (l : List Hit) :
    a ∈ sortHitsDesc l ↔ a ∈ l := by
  induction l with
  | nil => simp [sortHitsDesc]
  | cons x xs ih => simp [sortHitsDesc, mem_insertHitDesc, ih]

/-- The head of the stable descending sort is the earliest hit of maximal
score. -/
theorem head_sortHitsDesc (l : List Hit) :
    (sortHitsDesc l).head? = firstMaxHit l := by
  induction l with
  | nil => rfl
  | cons x xs ih =>
    rw [sortHitsDesc, firstMaxHit, ← ih]
    cases sortHitsDesc xs with
    | nil => rfl
    | cons y ys =>
      by_cases hlt : x.score < y.score
      · simp [insertHitDesc, hlt]
      · simp [insertHitDesc, hlt]

/-- `firstMaxHit` returns an element of the list. -/
theorem firstMaxHit_mem {l : List Hit} : ∀ {y : Hit}, firstMaxHit l = some y →
    y ∈ l := by
  induction l with
  | nil => intro y h; simp [firstMaxHit] at h
  | cons x xs ih =>
    intro y h
    rw [firstMaxHit] at h
    cases hx : firstMaxHit xs with
    | none =>
      rw [hx] at h
      simp at h
      simp [← h]
    | some z =>
      rw [hx] at h
      by_cases hlt : x.score < z.score
      · simp [hlt] at h
        exact List.mem_cons_of_mem _ (h ▸ ih hx)
      · simp [hlt] at h
        simp [← h]

/-- If `h` has strictly maximal score in `l`, then `firstMaxHit` finds
it. -/
theorem firstMaxHit_of_strict_max {l : List Hit} {h : Hit} (hmem : h ∈ l)
    (hstrict : ∀ x ∈ l, x ≠ h → x.score < h.score) :
    firstMaxHit l = some h := by
  induction l with
  | nil => cases hmem
  | cons a rest ih =>
    by_cases hah : a = h
    · subst hah
      rw [firstMaxHit]
      cases hr : firstMaxHit rest with
      | none => rfl
      | some y =>
        have hy : y ∈ rest := firstMaxHit_mem hr
        have hnot : ¬ a.score < y.score := by
          by_cases hya : y = a
          · subst hya
            exact lt_irrefl _
          · exact lt_asymm (hstrict y (List.mem_cons_of_mem _ hy) hya)
        simp [hnot]
    · have hmem' : h ∈ rest := by
        cases List.mem_cons.mp hmem with
        | inl heq => exact absurd heq.symm hah
        | inr hr => exact hr
      have ha : a.score < h.score := hstrict a (List.mem_cons_self _ _) hah
      have hr := ih hmem' (fun x hx hxh => hstrict x (List.mem_cons_of_mem _ hx) hxh)
      rw [firstMaxHit, hr]
      simp [ha]

/-- If everything in `post` scores at most `h`, then `h` is the first
maximal hit of `h :: post`. -/
theorem firstMaxHit_cons_of_le {h : Hit} {post : List Hit}
    (hle : ∀ q ∈ post, q.score ≤ h.score) :
    firstMaxHit (h :: post) = some h := by
  rw [firstMaxHit]
  cases hr : firstMaxHit post with
  | none => rfl
  | some y =>
    have hy : y ∈ post := firstMaxHit_mem hr
    simp [not_lt.mpr (hle y hy)]

/-- The earliest hit of maximal score in `pre ++ h :: post` is `h` when
everything before it scores strictly less and everything after it scores
at most as much. -/
theorem firstMaxHit_append {pre post : List Hit} {h : Hit}
    (hpre : ∀ p ∈ pre, p.score < h.score)
    (hpost : ∀ q ∈ post, q.score ≤ h.score) :
    firstMaxHit (pre ++ h :: post) = some h := by
  induction pre with
  | nil => exact firstMaxHit_cons_of_le hpost
  | cons p pre' ih =>
    have hih := ih (fun x hx => hpre x (List.mem_cons_of_mem _ hx))
    rw [List.cons_append, firstMaxHit, hih]
    simp [hpre p (List.mem_cons_self _ _)]

/-! ## Helper lemmas about `get_cached_answer` -/

/-- When the client's search returns `hits`, the result of
`get_cached_answer` is the answer of the earliest maximal-score hit among
those clearing the threshold. -/
theorem get_result_of_ok (self : MarqoSemanticCache) (question : String)
    (score_threshold : Rat) (top_k : Int) (hits : List Hit)
    (hs : ∀ r, self.marqo_client.search self.index_name r = Except.ok hits) :
    (get_cached_answer self question score_threshold top_k).fst
      = Except.ok ((firstMaxHit (filtered_results hits score_threshold)).map Hit.answer) := by
  simp only [get_cached_answer, hs, sorted_results]
  rw [← head_sortHitsDesc]
  cases sortHitsDesc (filtered_results hits score_threshold) with
  | nil => rfl
  | cons r rs => rfl

/-- The trace of `get_cached_answer` is always one search call, with the
limit resolved from the `-1` sentinel. -/
theorem get_trace (self : MarqoSemanticCache) (question : String)
    (score_threshold : Rat) (top_k : Int) :
    (get_cached_answer self question score_threshold top_k).snd
      = [ClientCall.search self.index_name
          ⟨question, ["rephrased_query"], ["answer"],
            (if top_k = -1 then self.top_k else top_k), 0⟩] := by
  simp only [get_cached_answer]
  split
  · rfl
  · split <;> rfl

/-! ## Claim theorems -/

/-- C1: collection bootstrap at construction is a three-way branch: an
`index_already_exists` web error is swallowed (construction succeeds); a
domain error (`MarqoError` proper) is wrapped and re-raised as a single
unified initialization error carrying the original cause; an unrecognized
web-error code or a generic non-Marqo exception propagates unchanged. -/
theorem c1_bootstrap_three_way (self : MarqoSemanticCache) :
    (∀ msg, self.marqo_client.create_index self.index_name
        = Except.error (PyExc.marqoWebError "index_already_exists" msg) →
      ensure_index_exists self = Except.ok ())
    ∧ (∀ msg cause, self.marqo_client.create_index self.index_name
        = Except.error (PyExc.marqoError msg cause) →
      ensure_index_exists self
        = Except.error (PyExc.marqoError
            ("Failed to create index " ++ self.index_name ++ ": " ++ msg)
            (some (PyExc.marqoError msg cause))))
    ∧ (∀ code msg, code ≠ "index_already_exists" →
      self.marqo_client.create_index self.index_name
        = Except.error (PyExc.marqoWebError code msg) →
      ensure_index_exists self = Except.error (PyExc.marqoWebError code msg))
    ∧ (∀ msg, self.marqo_client.create_index self.index_name
        = Except.error (PyExc.otherError msg) →
      ensure_index_exists self = Except.error (PyExc.otherError msg)) := by
  refine ⟨?_, ?_, ?_, ?_⟩
  · intro msg h
    simp [ensure_index_exists, h]
  · intro msg cause h
    simp [ensure_index_exists, h, PyExc.pystr]
  · intro code msg hne h
    simp [ensure_index_exists, h, hne]
  · intro msg h
    simp [ensure_index_exists, h]

/-- Witness for C1 at concrete clients failing each way. -/
theorem c1_bootstrap_three_way_witness :
    ensure_index_exists
        (failingCache (PyExc.marqoWebError "index_already_exists" "dup") 1)
      = Except.ok ()
    ∧ ensure_index_exists (failingCache (PyExc.marqoError "boom" none) 1)
      = Except.error (PyExc.marqoError
          ("Failed to create index " ++ "llm_cache" ++ ": " ++ "boom")
          (some (PyExc.marqoError "boom" none)))
    ∧ ensure_index_exists
        (failingCache (PyExc.marqoWebError "invalid_index_name" "bad") 1)
      = Except.error (PyExc.marqoWebError "invalid_index_name" "bad")
    ∧ ensure_index_exists (failingCache (PyExc.otherError "oops") 1)
      = Except.error (PyExc.otherError "oops") :=
  ⟨(c1_bootstrap_three_way _).1 "dup" rfl,
   (c1_bootstrap_three_way _).2.1 "boom" none rfl,
   (c1_bootstrap_three_way _).2.2.1 "invalid_index_name" "bad" (by decide) rfl,
   (c1_bootstrap_three_way _).2.2.2 "oops" rfl⟩

/-- C2: for every hit list returned by the service and every threshold,
`get_cached_answer` never returns an answer whose score is below the
threshold; and the comparison is inclusive, so a hit scoring exactly the
threshold may be returned. -/
theorem c2_threshold_guarantee :
    (∀ (self : MarqoSemanticCache) (question : String) (score_threshold : Rat)
        (top_k : Int) (hits : List Hit) (ans : String),
      (∀ r, self.marqo_client.search self.index_name r = Except.ok hits) →
      (get_cached_answer self question score_threshold top_k).fst
        = Except.ok (some ans) →
      ∃ h, h ∈ hits ∧ h.answer = ans ∧ score_threshold ≤ h.score)
    ∧ (∀ (ans : String) (score_threshold : Rat) (question : String)
        (top_k dk : Int),
      (get_cached_answer (constCache [⟨ans, score_threshold⟩] dk)
          question score_threshold top_k).fst = Except.ok (some ans)) := by
  constructor
  · intro self question score_threshold top_k hits ans hs hres
    rw [get_result_of_ok self question score_threshold top_k hits hs] at hres
    simp only [Except.ok.injEq] at hres
    rcases Option.map_eq_some'.mp hres with ⟨hh, hfm, hans⟩
    have hmem : hh ∈ filtered_results hits score_threshold := firstMaxHit_mem hfm
    rw [filtered_results, List.mem_filter] at hmem
    exact ⟨hh, hmem.1, hans, of_decide_eq_true hmem.2⟩
  · intro ans score_threshold question top_k dk
    rw [get_result_of_ok (constCache [⟨ans, score_threshold⟩] dk) question
      score_threshold top_k [⟨ans, score_threshold⟩] (fun _ => rfl)]
    simp [filtered_results, firstMaxHit, List.filter]

/-- Witness for C2 at a concrete hit list. -/
theorem c2_threshold_guarantee_witness :
    ∃ h, h ∈ [Hit.mk "ans" 1] ∧ h.answer = "ans" ∧ (0 : Rat) ≤ h.score :=
  c2_threshold_guarantee.1 (constCache [Hit.mk "ans" 1] 3) "q" 0 2
    [Hit.mk "ans" 1] "ans" (fun _ => rfl) rfl

/-- C3: when at least two candidates clear the threshold and one scores
strictly higher than every other survivor, `get_cached_answer` returns
that candidate's answer. -/
theorem c3_top1_selection (self : MarqoSemanticCache) (question : String)
    (score_threshold : Rat) (top_k : Int) (hits : List Hit) (best : Hit)
    (hs : ∀ r, self.marqo_client.search self.index_name r = Except.ok hits)
    (_hcount : 2 ≤ (filtered_results hits score_threshold).length)
    (hmem : best ∈ hits) (hth : score_threshold ≤ best.score)
    (hstrict : ∀ x ∈ hits, score_threshold ≤ x.score → x ≠ best →
      x.score < best.score) :
    (get_cached_answer self question score_threshold top_k).fst
      = Except.ok (some best.answer) := by
  rw [get_result_of_ok self question score_threshold top_k hits hs]
  have hmem' : best ∈ filtered_results hits score_threshold := by
    rw [filtered_results, List.mem_filter]
    exact ⟨hmem, decide_eq_true hth⟩
  have hfm : firstMaxHit (filtered_results hits score_threshold) = some best := by
    apply firstMaxHit_of_strict_max hmem'
    intro x hx hxb
    rw [filtered_results, List.mem_filter] at hx
    exact hstrict x hx.1 (of_decide_eq_true hx.2) hxb
  rw [hfm]
  rfl

/-- Witness for C3: two survivors, scores 2 and 1, threshold 0. -/
theorem c3_top1_selection_witness :
    (get_cached_answer (constCache [⟨"a", 2⟩, ⟨"b", 1⟩] 1) "q" 0 2).fst
      = Except.ok (some "a") :=
  c3_top1_selection (constCache [⟨"a", 2⟩, ⟨"b", 1⟩] 1) "q" 0 2
    [⟨"a", 2⟩, ⟨"b", 1⟩] ⟨"a", 2⟩ (fun _ => rfl) (by decide) (by decide)
    (by decide) (by decide)

/-- C4: when no hit clears the threshold (in particular on an empty hit
list), `get_cached_answer` returns `None` rather than raising. -/
theorem c4_empty_on_miss (self : MarqoSemanticCache) (question : String)
    (score_threshold : Rat) (top_k : Int) (hits : List Hit)
    (hs : ∀ r, self.marqo_client.search self.index_name r = Except.ok hits)
    (hmiss : ∀ x ∈ hits, x.score < score_threshold) :
    (get_cached_answer self question score_threshold top_k).fst
      = Except.ok none := by
  rw [get_result_of_ok self question score_threshold top_k hits hs]
  have hnil : filtered_results hits score_threshold = [] := by
    rw [filtered_results, List.filter_eq_nil_iff]
    intro x hx
    simp only [decide_eq_true_eq]
    exact not_le.mpr (hmiss x hx)
  rw [hnil]
  rfl

/-- Witness for C4: one hit scoring 0 against threshold 1, and the empty
hit list. -/
theorem c4_empty_on_miss_witness :
    (get_cached_answer (constCache [⟨"a", 0⟩] 1) "q" 1 1).fst = Except.ok none
    ∧ (get_cached_answer (constCache [] 1) "q" 1 1).fst = Except.ok none :=
  ⟨c4_empty_on_miss (constCache [⟨"a", 0⟩] 1) "q" 1 1 [⟨"a", 0⟩]
      (fun _ => rfl) (by decide),
   c4_empty_on_miss (constCache [] 1) "q" 1 1 [] (fun _ => rfl) (by decide)⟩

/-- C5: calling `get_cached_answer` with the sentinel `top_k = -1`
produces the same result (and the same client calls) as calling it with
the manager's configured default `top_k`. -/
theorem c5_default_substitution (self : MarqoSemanticCache) (question : String)
    (score_threshold : Rat) :
    get_cached_answer self question score_threshold (-1)
      = get_cached_answer self question score_threshold self.top_k := by
  by_cases h : self.top_k = -1
  · simp [get_cached_answer, h]
  · simp [get_cached_answer, h]

/-- C6: `store_llm_response` issues exactly one `add_documents` call whose
request holds one document carrying all three fields, marks only
`rephrased_query` as tensor field, and sets `auto_refresh` (immediate
visibility). -/
theorem c6_store_one_document (self : MarqoSemanticCache)
    (question answer rephrased_query : String) :
    store_llm_response self question answer rephrased_query
      = self.marqo_client.add_documents self.index_name
          (store_request question answer rephrased_query)
    ∧ (store_request question answer rephrased_query).documents
        = [⟨question, answer, rephrased_query⟩]
    ∧ (store_request question answer rephrased_query).tensor_fields
        = ["rephrased_query"]
    ∧ (store_request question answer rephrased_query).auto_refresh = true :=
  ⟨rfl, rfl, rfl, rfl⟩

/-- C7: no retries and no local recovery: an error raised by the client's
write call propagates unchanged out of `store_llm_response`, and an error
raised by the client's search call propagates unchanged out of
`get_cached_answer`. -/
theorem c7_error_propagation (self : MarqoSemanticCache)
    (question answer rephrased_query : String) (score_threshold : Rat)
    (top_k : Int) (e : PyExc) :
    (self.marqo_client.add_documents self.index_name
        (store_request question answer rephrased_query) = Except.error e →
      store_llm_response self question answer rephrased_query
        = Except.error e)
    ∧ ((∀ r, self.marqo_client.search self.index_name r = Except.error e) →
      (get_cached_answer self question score_threshold top_k).fst
        = Except.error e) := by
  constructor
  · intro h
    rw [store_llm_response]
    exact h
  · intro hs
    simp [get_cached_answer, hs]

/-- Witness for C7 at a concrete failing client. -/
theorem c7_error_propagation_witness :
    store_llm_response (failingCache (PyExc.otherError "down") 1) "q" "a" "r"
        = Except.error (PyExc.otherError "down")
    ∧ (get_cached_answer (failingCache (PyExc.otherError "down") 1) "q" 0 1).fst
        = Except.error (PyExc.otherError "down") :=
  ⟨(c7_error_propagation (failingCache (PyExc.otherError "down") 1) "q" "a" "r"
      0 1 (PyExc.otherError "down")).1 rfl,
   (c7_error_propagation (failingCache (PyExc.otherError "down") 1) "q" "a" "r"
      0 1 (PyExc.otherError "down")).2 (fun _ => rfl)⟩

/-- C8: `get_cached_answer` is read-only: its trace is exactly one search
call (no `add_documents`, no `create_index`), and replaying that trace
against the service-state semantics of spec §6 leaves any state unchanged.
The manager's own configuration is an immutable record in this embedding
and is untouched by construction. -/
theorem c8_lookup_read_only (self : MarqoSemanticCache) (question : String)
    (score_threshold : Rat) (top_k : Int) (st : ServiceState) :
    (get_cached_answer self question score_threshold top_k).snd
      = [ClientCall.search self.index_name
          ⟨question, ["rephrased_query"], ["answer"],
            (if top_k = -1 then self.top_k else top_k), 0⟩]
    ∧ List.foldl applyCall st
        (get_cached_answer self question score_threshold top_k).snd = st := by
  refine ⟨get_trace self question score_threshold top_k, ?_⟩
  rw [get_trace]
  rfl

/-- C9: when two or more survivors tie for the maximal score, the answer
returned is that of the tied survivor appearing earliest in the service's
hit order (filtering preserves order; the descending sort is stable). -/
theorem c9_stable_tie_break (self : MarqoSemanticCache) (question : String)
    (score_threshold : Rat) (top_k : Int) (hits : List Hit)
    (pre post : List Hit) (best : Hit)
    (hs : ∀ r, self.marqo_client.search self.index_name r = Except.ok hits)
    (hsplit : filtered_results hits score_threshold = pre ++ best :: post)
    (hpre : ∀ p ∈ pre, p.score < best.score)
    (hpost : ∀ x ∈ post, x.score ≤ best.score)
    (_htie : ∃ x ∈ post, x.score = best.score) :
    (get_cached_answer self question score_threshold top_k).fst
      = Except.ok (some best.answer) := by
  rw [get_result_of_ok self question score_threshold top_k hits hs, hsplit,
    firstMaxHit_append hpre hpost]
  rfl

/-- Witness for C9: two hits tied at score 1; the first one's answer is
returned. -/
theorem c9_stable_tie_break_witness :
    (get_cached_answer (constCache [⟨"a", 1⟩, ⟨"b", 1⟩] 1) "q" 0 2).fst
      = Except.ok (some "a") :=
  c9_stable_tie_break (constCache [⟨"a", 1⟩, ⟨"b", 1⟩] 1) "q" 0 2
    [⟨"a", 1⟩, ⟨"b", 1⟩] [] [⟨"b", 1⟩] ⟨"a", 1⟩ (fun _ => rfl) (by decide)
    (by decide) (by decide) (by decide)

/-- C10: every `top_k` other than the exact sentinel `-1` — including `0`
and other negative values — is forwarded unchanged as the limit of the
search request. -/
theorem c10_limit_forwarded (self : MarqoSemanticCache) (question : String)
    (score_threshold : Rat) (top_k : Int) (hne : top_k ≠ -1) :
    (get_cached_answer self question score_threshold top_k).snd
      = [ClientCall.search self.index_name
          ⟨question, ["rephrased_query"], ["answer"], top_k, 0⟩] := by
  rw [get_trace, if_neg hne]

/-- Witness for C10 at `top_k = 0` and `top_k = -2`. -/
theorem c10_limit_forwarded_witness :
    (get_cached_answer (constCache [] 7) "q" 0 0).snd
      = [ClientCall.search "llm_cache" ⟨"q", ["rephrased_query"], ["answer"], 0, 0⟩]
    ∧ (get_cached_answer (constCache [] 7) "q" 0 (-2)).snd
      = [ClientCall.search "llm_cache" ⟨"q", ["rephrased_query"], ["answer"], -2, 0⟩] :=
  ⟨c10_limit_forwarded (constCache [] 7) "q" 0 0 (by decide),
   c10_limit_forwarded (constCache [] 7) "q" 0 (-2) (by decide)⟩
